import Mathlib

/-!
Shallow embedding of the CollabCode backend WebSocket collaboration core
(`setupWebSocket`, `applyOperation`, `handleLeaveSession` and the
per-event handlers), together with proofs of the specified properties.

Documents are modelled as `List Char` (JS strings), JS `String.prototype.slice`
index resolution is embedded exactly (negative indices count from the end,
out-of-range indices clamp), and the JS `Map` used for `activeSessions` and
`session.participants` is embedded as an insertion-ordered association list
whose `set` updates an existing key in place and appends a fresh key.
-/

namespace Collab

/-- JS `String.prototype.slice` index resolution for a string of length `n`:
a negative index counts from the end (clamped at 0), a non-negative index is
clamped at `n`. -/
def sliceIndex (n : Nat) (i : Int) : Nat :=
  if i < 0 then ((n : Int) + i).toNat else min i.toNat n

/-- JS `s.slice(b, e)`: the segment from resolved index `b` to resolved
index `e` (empty when the resolved end is before the resolved start). -/
def jsSlice (s : List Char) (b e : Int) : List Char :=
  (s.take (sliceIndex s.length e)).drop (sliceIndex s.length b)

/-- JS `s.slice(b)`: the suffix from resolved index `b`. -/
def jsSliceFrom (s : List Char) (b : Int) : List Char :=
  s.drop (sliceIndex s.length b)

/-- The `TextOperation.type` alternatives: insert, delete, retain. -/
inductive OpType where
  | insert
  | delete
  | retain
deriving DecidableEq, Repr

/-- The client-controlled fields of a `TextOperation`
(`Omit<TextOperation, 'userId' | 'timestamp'>` minus the overwritten
`sessionId`): `type`, `position`, optional `content`, optional `length`. -/
structure OpCore where
  type : OpType
  position : Int
  content : Option (List Char)
  length : Option Int
deriving DecidableEq, Repr

/-- The full `TextOperation` record: the client fields plus the
server-stamped `userId`, `timestamp` and `sessionId`. -/
structure TextOperation extends OpCore where
  userId : String
  timestamp : Nat
  sessionId : String
deriving DecidableEq, Repr

/-- The function `applyOperation(content, operation)`:
insert  → `content.slice(0, position) + (operation.content || '') + content.slice(position)`;
delete  → `content.slice(0, position) + content.slice(position + (operation.length || 0))`;
retain  → `content` unchanged.
`x || ''` on an optional string and `x || 0` on an optional number are
`Option.getD` (the falsy values `''`/`0` map to themselves). -/
def applyOperation (content : List Char) (operation : TextOperation) : List Char :=
  match operation.type with
  | OpType.insert =>
      jsSlice content 0 operation.position
        ++ operation.content.getD []
        ++ jsSliceFrom content operation.position
  | OpType.delete =>
      jsSlice content 0 operation.position
        ++ jsSliceFrom content (operation.position + operation.length.getD 0)
  | OpType.retain => content

/-- JS `Map.get`. -/
def mapGet {α : Type} : List (String × α) → String → Option α
  | [], _ => none
  | p :: rest, k => if p.1 = k then some p.2 else mapGet rest k

/-- JS `Map.set`: update an existing key in place (keeping its insertion
position), append a fresh key at the end. -/
def mapSet {α : Type} : List (String × α) → String → α → List (String × α)
  | [], k, v => [(k, v)]
  | p :: rest, k, v => if p.1 = k then (k, v) :: rest else p :: mapSet rest k v

/-- JS `Map.delete`. -/
def mapDelete {α : Type} : List (String × α) → String → List (String × α)
  | [], _ => []
  | p :: rest, k => if p.1 = k then mapDelete rest k else p :: mapDelete rest k

/-- A cursor position (line, column). -/
structure Cursor where
  line : Int
  column : Int
deriving DecidableEq, Repr

/-- A selection `{start, end}`. -/
structure Selection where
  start : Cursor
  «end» : Cursor
deriving DecidableEq, Repr

/-- One identity's presence in a session (`SessionParticipant`). -/
structure SessionParticipant where
  userId : String
  username : String
  socketId : String
  joinedAt : Nat
  cursor : Option Cursor
  selection : Option Selection
deriving DecidableEq, Repr

/-- A `CollaborationSession`: the per-session document state plus the
insertion-ordered participants map. -/
structure CollaborationSession where
  sessionId : String
  projectId : String
  participants : List (String × SessionParticipant)
  currentContent : List Char
  version : Nat
  lastActivity : Nat
deriving DecidableEq, Repr

/-- The server-side state of the module: the `activeSessions` map. -/
structure ServerState where
  activeSessions : List (String × CollaborationSession)
deriving DecidableEq, Repr

/-- The per-connection state the handlers read and write: the socket id, the
identity bound at connection time (`socket.userId`, `socket.username`), the
bound session (`socket.data.sessionId`) and the socket.io rooms. -/
structure Sock where
  socketId : String
  userId : String
  username : String
  dataSessionId : Option String
  rooms : List String
deriving DecidableEq, Repr

/-- The participant view sent in `session-joined` payloads:
`{userId, username, joinedAt, cursor}`. -/
structure ParticipantView where
  userId : String
  username : String
  joinedAt : Nat
  cursor : Option Cursor
deriving DecidableEq, Repr

/-- The payload of a `cursor-update` frame: `{line, column, selection?}`. -/
structure CursorUpdateData where
  line : Int
  column : Int
  selection : Option Selection
deriving DecidableEq, Repr

/-- Outbound events emitted by the handlers. -/
inductive OutEvent where
  | sessionJoined (sessionId : String) (currentContent : List Char) (version : Nat)
      (participants : List ParticipantView)
  | participantJoined (userId username : String) (joinedAt : Nat)
  | operationApplied (operation : TextOperation)
  | operationAcknowledged (operationId : Nat) (newVersion : Nat)
  | cursorMoved (userId username : String) (line column : Int)
      (selection : Option Selection) (timestamp : Nat)
  | participantLeft (userId username : String)
  | errorEvent (message : String)
deriving DecidableEq, Repr

/-- An emission: `socket.emit(...)` goes to the sender only,
`socket.to(room).emit(...)` goes to every socket in the room except the
sender (socket.io semantics). -/
inductive Emit where
  | toSender (socketId : String) (event : OutEvent)
  | toRoomExceptSender (room : String) (senderSocketId : String) (event : OutEvent)
deriving DecidableEq, Repr

/-- The event carried by an emission. -/
def Emit.event : Emit → OutEvent
  | Emit.toSender _ e => e
  | Emit.toRoomExceptSender _ _ e => e

/-- The delivery targets of one emission among a roster of connected
sockets: `socket.to(room)` reaches the sockets in the room other than the
sender; `socket.emit` reaches the sender's socket. -/
def emitTargets (sockets : List Sock) (e : Emit) : List Sock :=
  match e with
  | Emit.toSender sid _ => sockets.filter (fun s => s.socketId == sid)
  | Emit.toRoomExceptSender room sender _ =>
      sockets.filter (fun s => s.rooms.contains room && s.socketId != sender)

/-- The default content of a freshly created session. -/
def defaultContent : List Char :=
  "// Welcome to CollabCode collaborative session!\n".toList

/-- The participant record built by the `join-session` handler. -/
def joinParticipant (sock : Sock) (now : Nat) : SessionParticipant :=
  { userId := sock.userId
    username := sock.username
    socketId := sock.socketId
    joinedAt := now
    cursor := none
    selection := none }

/-- The `session-joined` participant view of a stored participant. -/
def participantView (p : SessionParticipant) : ParticipantView :=
  { userId := p.userId
    username := p.username
    joinedAt := p.joinedAt
    cursor := p.cursor }

/-- The `join-session` handler: resolve or create the session (fresh
sessions get `defaultContent` and version 1), `participants.set` the joiner
(replacing any prior entry for the identity in place), join the room, bind
`socket.data.sessionId`, emit `session-joined` to the joiner and
`participant-joined` to the others. -/
def handleJoinSession (sock : Sock) (sessionId : String) (now : Nat) (st : ServerState) :
    Sock × ServerState × List Emit :=
  let session : CollaborationSession :=
    match mapGet st.activeSessions sessionId with
    | some s => s
    | none =>
        { sessionId := sessionId
          projectId := "temp-project"
          participants := []
          currentContent := defaultContent
          version := 1
          lastActivity := now }
  let participant := joinParticipant sock now
  let newSession :=
    { session with participants := mapSet session.participants sock.userId participant }
  let newSock :=
    { sock with
        dataSessionId := some sessionId
        rooms := if sock.rooms.contains sessionId then sock.rooms else sock.rooms ++ [sessionId] }
  ( newSock
  , { activeSessions := mapSet st.activeSessions sessionId newSession }
  , [ Emit.toSender sock.socketId
        (OutEvent.sessionJoined sessionId newSession.currentContent newSession.version
          (newSession.participants.map (fun p => participantView p.2)))
    , Emit.toRoomExceptSender sessionId sock.socketId
        (OutEvent.participantJoined participant.userId participant.username participant.joinedAt) ] )

/-- The server stamp on an inbound operation: `{...operation, userId:
socket.userId, timestamp: Date.now(), sessionId}`. -/
def stampOp (sock : Sock) (sessionId : String) (op : OpCore) (now : Nat) : TextOperation :=
  { toOpCore := op, userId := sock.userId, timestamp := now, sessionId := sessionId }

/-- The `text-operation` handler: `Not in a session` when the socket has no
bound sessionId, `Session not found` when the bound id has no resident
session (both reported to the sender only, state untouched); otherwise the
stamped operation is applied, the version incremented, `operation-applied`
broadcast to the room minus the sender and `operation-acknowledged` (carrying
the stamped timestamp as `operationId`) sent to the sender. -/
def handleTextOperation (sock : Sock) (op : OpCore) (now : Nat) (st : ServerState) :
    ServerState × List Emit :=
  match sock.dataSessionId with
  | none => (st, [Emit.toSender sock.socketId (OutEvent.errorEvent "Not in a session")])
  | some sessionId =>
    match mapGet st.activeSessions sessionId with
    | none => (st, [Emit.toSender sock.socketId (OutEvent.errorEvent "Session not found")])
    | some session =>
      let completeOperation := stampOp sock sessionId op now
      let newSession :=
        { session with
            currentContent := applyOperation session.currentContent completeOperation
            version := session.version + 1
            lastActivity := now }
      ( { activeSessions := mapSet st.activeSessions sessionId newSession }
      , [ Emit.toRoomExceptSender sessionId sock.socketId
            (OutEvent.operationApplied completeOperation)
        , Emit.toSender sock.socketId
            (OutEvent.operationAcknowledged completeOperation.timestamp newSession.version) ] )

/-- The `cursor-update` handler: silent return when unbound or the session
is absent; the participant's cursor/selection are updated only when the
identity is a current participant, but `cursor-moved` is broadcast to the
room minus the sender unconditionally. -/
def handleCursorUpdate (sock : Sock) (data : CursorUpdateData) (now : Nat) (st : ServerState) :
    ServerState × List Emit :=
  match sock.dataSessionId with
  | none => (st, [])
  | some sessionId =>
    match mapGet st.activeSessions sessionId with
    | none => (st, [])
    | some session =>
      let newState : ServerState :=
        match mapGet session.participants sock.userId with
        | some participant =>
            let newParticipant :=
              { participant with
                  cursor := some { line := data.line, column := data.column }
                  selection := data.selection }
            { activeSessions :=
                mapSet st.activeSessions sessionId
                  { session with
                      participants := mapSet session.participants sock.userId newParticipant } }
        | none => st
      ( newState
      , [ Emit.toRoomExceptSender sessionId sock.socketId
            (OutEvent.cursorMoved sock.userId sock.username data.line data.column
              data.selection now) ] )

/-- The function `handleLeaveSession`: early return when no sessionId is bound, the
userId is falsy, or the session is absent; otherwise delete the
participant, leave the room, emit `participant-left` to the others, delete
the session when its participant map became empty, and unbind
`socket.data.sessionId`. -/
def handleLeaveSession (sock : Sock) (st : ServerState) :
    Sock × ServerState × List Emit :=
  match sock.dataSessionId with
  | none => (sock, st, [])
  | some sessionId =>
    if sock.userId = "" then (sock, st, [])
    else
      match mapGet st.activeSessions sessionId with
      | none => (sock, st, [])
      | some session =>
        let newSession :=
          { session with participants := mapDelete session.participants sock.userId }
        let newSessions :=
          if newSession.participants.length = 0 then mapDelete st.activeSessions sessionId
          else mapSet st.activeSessions sessionId newSession
        ( { sock with
              rooms := sock.rooms.filter (fun r => r != sessionId)
              dataSessionId := none }
        , { activeSessions := newSessions }
        , [ Emit.toRoomExceptSender sessionId sock.socketId
              (OutEvent.participantLeft sock.userId sock.username) ] )

/-- One inbound WebSocket frame, by message kind. -/
inductive InboundFrame where
  | joinSession (sessionId : String)
  | textOperation (op : OpCore)
  | cursorUpdate (data : CursorUpdateData)
  | leaveSession
deriving DecidableEq, Repr

/-- The Connection Gateway's dispatch of one inbound frame, exactly as the
`socket.on` handlers are wired: no admission-gate check occurs anywhere on
this path (the `wsRateLimiter` collaborator is imported by the module but
never invoked). -/
def dispatchFrame (sock : Sock) (frame : InboundFrame) (now : Nat) (st : ServerState) :
    Sock × ServerState × List Emit :=
  match frame with
  | InboundFrame.joinSession sessionId => handleJoinSession sock sessionId now st
  | InboundFrame.textOperation op =>
      let r := handleTextOperation sock op now st
      (sock, r.1, r.2)
  | InboundFrame.cursorUpdate data =>
      let r := handleCursorUpdate sock data now st
      (sock, r.1, r.2)
  | InboundFrame.leaveSession => handleLeaveSession sock st

/-- A `text-operation` frame together with its issuing socket and the
server clock at receipt. -/
structure OpFrame where
  sock : Sock
  op : OpCore
  now : Nat
deriving DecidableEq, Repr

/-- Sequential processing of a list of `text-operation` frames (single
owning execution context: strictly in receipt order). -/
def processOpFrames (frames : List OpFrame) (st : ServerState) : ServerState :=
  frames.foldl (fun acc f => (handleTextOperation f.sock f.op f.now acc).1) st

/-- A `join-session` frame together with its issuing socket and the server
clock at receipt. -/
structure JoinFrame where
  sock : Sock
  now : Nat
deriving DecidableEq, Repr

/-- Sequential processing of a list of `join-session` frames for one
session id. -/
def processJoinFrames (sessionId : String) (frames : List JoinFrame) (st : ServerState) :
    ServerState :=
  frames.foldl (fun acc f => (handleJoinSession f.sock sessionId f.now acc).2.1) st

/-! ### Concrete fixtures for witnesses and counterexamples -/

/-- A connected socket `A`, identity `a`, bound to session `"s"`. -/
def sockA : Sock :=
  { socketId := "A", userId := "a", username := "ua", dataSessionId := some "s", rooms := ["s"] }

/-- A connected socket `B`, identity `b`, bound to session `"s"`. -/
def sockB : Sock :=
  { socketId := "B", userId := "b", username := "ub", dataSessionId := some "s", rooms := ["s"] }

/-- A connected socket `U` that has not joined any session. -/
def sockU : Sock :=
  { socketId := "U", userId := "u1", username := "uu", dataSessionId := none, rooms := [] }

/-- A small inbound insert operation. -/
def op0 : OpCore :=
  { type := OpType.insert, position := 0, content := some ['x'], length := none }

/-- A resident session `"s"` whose sole participant is identity `a`. -/
def session1 : CollaborationSession :=
  { sessionId := "s", projectId := "temp-project"
    participants := [("a", joinParticipant sockA 0)]
    currentContent := ['h', 'i'], version := 5, lastActivity := 0 }

/-- A server state holding only `session1`. -/
def st1 : ServerState := { activeSessions := [("s", session1)] }

/-- A resident session `"s"` whose sole participant is identity `b`. -/
def sessionB : CollaborationSession :=
  { sessionId := "s", projectId := "temp-project"
    participants := [("b", joinParticipant sockB 0)]
    currentContent := ['h', 'i'], version := 5, lastActivity := 0 }

/-- A server state holding only `sessionB`. -/
def stB : ServerState := { activeSessions := [("s", sessionB)] }

/-- The empty server state. -/
def stEmpty : ServerState := { activeSessions := [] }

/-- Join frame: socket `A` at time 1. -/
def jfA : JoinFrame := { sock := sockA, now := 1 }

/-- Join frame: socket `B` at time 2. -/
def jfB : JoinFrame := { sock := sockB, now := 2 }

/-- Join frame: socket `U` at time 3. -/
def jfU : JoinFrame := { sock := sockU, now := 3 }

/-- An inbound delete of one character at position 0. -/
def opDel1 : OpCore :=
  { type := OpType.delete, position := 0, content := none, length := some 1 }

/-- Two text-operation frames for session `"s"`: an insert by `A` at
clock 10, then a delete by `B` at clock 11. -/
def frames1 : List OpFrame :=
  [ { sock := sockA, op := op0, now := 10 }
  , { sock := sockB, op := opDel1, now := 11 } ]

/-- The joinedAt timestamps listed by the first `session-joined` payload
among a list of emissions, in payload order. -/
def sessionJoinedTimes : List Emit → Option (List Nat)
  | [] => none
  | e :: rest =>
      match e.event with
      | OutEvent.sessionJoined _ _ _ ps => some (ps.map (fun v => v.joinedAt))
      | _ => sessionJoinedTimes rest

/-- Whether a list of timestamps is non-decreasing. -/
def nonDecreasing : List Nat → Bool
  | [] => true
  | [_] => true
  | a :: b :: rest => if a ≤ b then nonDecreasing (b :: rest) else false

/-! ### Association-list map lemmas -/

theorem mapGet_mapSet_self {α : Type} (m : List (String × α)) (k : String) (v : α) :
    mapGet (mapSet m k v) k = some v := by
  induction m with
  | nil => simp [mapSet, mapGet]
  | cons p rest ih =>
      by_cases h : p.1 = k
      · simp [mapSet, mapGet, h]
      · simp [mapSet, mapGet, h, ih]

theorem mapGet_mapSet_ne {α : Type} (m : List (String × α)) (k k' : String) (v : α)
    (h : k' ≠ k) : mapGet (mapSet m k v) k' = mapGet m k' := by
  induction m with
  | nil => simp [mapSet, mapGet, Ne.symm h]
  | cons p rest ih =>
      by_cases hp : p.1 = k
      · simp [mapSet, mapGet, hp, Ne.symm h]
      · simp [mapSet, mapGet, hp, ih]

theorem mapGet_mapDelete_self {α : Type} (m : List (String × α)) (k : String) :
    mapGet (mapDelete m k) k = none := by
  induction m with
  | nil => simp [mapDelete, mapGet]
  | cons p rest ih =>
      by_cases h : p.1 = k
      · simp [mapDelete, h, ih]
      · simp [mapDelete, mapGet, h, ih]

theorem mapGet_mapDelete_ne {α : Type} (m : List (String × α)) (k k' : String)
    (h : k' ≠ k) : mapGet (mapDelete m k) k' = mapGet m k' := by
  induction m with
  | nil => simp [mapDelete]
  | cons p rest ih =>
      by_cases hp : p.1 = k
      · simp [mapDelete, mapGet, hp, Ne.symm h, ih]
      · simp [mapDelete, mapGet, hp, ih]

theorem mapSet_ne_nil {α : Type} (m : List (String × α)) (k : String) (v : α) :
    mapSet m k v ≠ [] := by
  cases m with
  | nil => simp [mapSet]
  | cons p rest =>
      by_cases h : p.1 = k <;> simp [mapSet, h]

theorem mapSet_of_not_mem {α : Type} (m : List (String × α)) (k : String) (v : α)
    (h : ∀ p ∈ m, p.1 ≠ k) : mapSet m k v = m ++ [(k, v)] := by
  induction m with
  | nil => simp [mapSet]
  | cons p rest ih =>
      have hp : p.1 ≠ k := h p (List.mem_cons_self p rest)
      simp only [mapSet, if_neg hp, List.cons_append]
      rw [ih (fun q hq => h q (List.mem_cons_of_mem p hq))]

/-! ### JS slice lemmas -/

theorem sliceIndex_zero (n : Nat) : sliceIndex n 0 = 0 := by
  simp [sliceIndex]

theorem sliceIndex_of_nonneg (n : Nat) (i : Int) (h : 0 ≤ i) :
    sliceIndex n i = min i.toNat n := by
  simp [sliceIndex, not_lt.mpr h]

theorem sliceIndex_of_ge (n : Nat) (i : Int) (h : (n : Int) ≤ i) :
    sliceIndex n i = n := by
  have h0 : 0 ≤ i := le_trans (Int.ofNat_nonneg n) h
  have : n ≤ i.toNat := by omega
  simp [sliceIndex_of_nonneg n i h0, Nat.min_eq_right this]

theorem jsSlice_zero_left (s : List Char) (p : Int) :
    jsSlice s 0 p = s.take (sliceIndex s.length p) := by
  simp [jsSlice, sliceIndex_zero]

theorem jsSlice_append_jsSliceFrom (s : List Char) (p : Int) :
    jsSlice s 0 p ++ jsSliceFrom s p = s := by
  rw [jsSlice_zero_left]
  exact List.take_append_drop _ s

theorem take_min_length (s : List Char) (a : Nat) : s.take (min a s.length) = s.take a := by
  rcases le_total a s.length with h | h
  · rw [min_eq_left h]
  · rw [min_eq_right h, List.take_length, List.take_of_length_le h]

/-! ### Claim theorems -/

/-- C4: for every content string and non-negative position, an insert at a
position greater than the content length yields the same result as an
insert at position equal to the content length, and a delete whose
`position + length` exceeds the content length removes exactly the suffix
`content[position:]` (the result is `content[0:position]`). -/
theorem C4_clamp_law :
    (∀ (content : List Char) (p : Int) (payload : Option (List Char))
        (u : String) (t : Nat) (sid : String),
        (content.length : Int) < p →
        applyOperation content
            { type := OpType.insert, position := p, content := payload, length := none,
              userId := u, timestamp := t, sessionId := sid } =
          applyOperation content
            { type := OpType.insert, position := (content.length : Int), content := payload,
              length := none, userId := u, timestamp := t, sessionId := sid }) ∧
    (∀ (content : List Char) (p l : Int) (u : String) (t : Nat) (sid : String),
        0 ≤ p → (content.length : Int) < p + l →
        applyOperation content
            { type := OpType.delete, position := p, content := none, length := some l,
              userId := u, timestamp := t, sessionId := sid } =
          content.take p.toNat) := by
  constructor
  · intro content p payload u t sid hp
    have hn : (content.length : Int) ≤ p := le_of_lt hp
    simp only [applyOperation, jsSlice_zero_left, jsSliceFrom]
    rw [sliceIndex_of_ge _ _ hn, sliceIndex_of_ge _ _ (le_refl _)]
  · intro content p l u t sid hp0 hpl
    simp only [applyOperation, jsSlice_zero_left, jsSliceFrom, Option.getD_some]
    rw [sliceIndex_of_ge _ _ (le_of_lt hpl), List.drop_length, List.append_nil,
      sliceIndex_of_nonneg _ _ hp0, take_min_length]

/-- C4 witness: the clamp law evaluated at `"ab"` with an insert at
position 5 and at `"abc"` with a delete of length 5 at position 1. -/
theorem C4_clamp_law_witness :
    applyOperation ['a', 'b']
        { type := OpType.insert, position := 5, content := some ['x'], length := none,
          userId := "u", timestamp := 0, sessionId := "s" } =
      applyOperation ['a', 'b']
        { type := OpType.insert, position := (2 : Int), content := some ['x'], length := none,
          userId := "u", timestamp := 0, sessionId := "s" } ∧
    applyOperation ['a', 'b', 'c']
        { type := OpType.delete, position := 1, content := none, length := some 5,
          userId := "u", timestamp := 0, sessionId := "s" } =
      List.take (Int.toNat 1) ['a', 'b', 'c'] :=
  ⟨C4_clamp_law.1 ['a', 'b'] 5 (some ['x']) "u" 0 "s" (by decide),
   C4_clamp_law.2 ['a', 'b', 'c'] 1 5 "u" 0 "s" (by decide) (by decide)⟩

/-- C5 counterexample: a delete with negative length `-1` at position 0 of
`"abc"` yields `"c"`, not `"abc"`: `operation.length || 0` lets a negative
length through to `slice`, whose negative start counts from the end of the
string. The claim that a negative length is a no-op is false on the code. -/
theorem C5_counterexample :
    applyOperation ['a', 'b', 'c']
        { type := OpType.delete, position := 0, content := none, length := some (-1),
          userId := "u", timestamp := 0, sessionId := "s" } ≠ ['a', 'b', 'c'] := by
  decide

/-- C5 (amended): for every content string and non-negative position, a
delete whose length field is missing — or equal to 0 — leaves the content
unchanged; a negative length is not treated as 0 and can change the
content. -/
theorem C5_missing_length_noop :
    ∀ (content : List Char) (p : Int) (u : String) (t : Nat) (sid : String),
      0 ≤ p →
      applyOperation content
          { type := OpType.delete, position := p, content := none, length := none,
            userId := u, timestamp := t, sessionId := sid } = content ∧
      applyOperation content
          { type := OpType.delete, position := p, content := none, length := some 0,
            userId := u, timestamp := t, sessionId := sid } = content := by
  intro content p u t sid hp
  constructor
  · simp only [applyOperation, Option.getD_none, add_zero]
    exact jsSlice_append_jsSliceFrom content p
  · simp only [applyOperation, Option.getD_some, add_zero]
    exact jsSlice_append_jsSliceFrom content p

/-- C5 witness: the missing-length no-op evaluated at `"hi"`, position 1. -/
theorem C5_missing_length_noop_witness :
    applyOperation ['h', 'i']
        { type := OpType.delete, position := 1, content := none, length := none,
          userId := "u", timestamp := 0, sessionId := "s" } = ['h', 'i'] ∧
    applyOperation ['h', 'i']
        { type := OpType.delete, position := 1, content := none, length := some 0,
          userId := "u", timestamp := 0, sessionId := "s" } = ['h', 'i'] :=
  C5_missing_length_noop ['h', 'i'] 1 "u" 0 "s" (by decide)

/-- C6: a `text-operation` frame on a connection with no bound sessionId
(`Not in a session`) or whose bound sessionId has no resident session
(`Session not found`) produces exactly one error emission to the sender —
nothing is broadcast to other participants — and leaves the server state
(hence documentContent, version, participants and lastActivityAt of every
session) unchanged. -/
theorem C6_error_branches_local :
    ∀ (sock : Sock) (op : OpCore) (now : Nat) (st : ServerState),
      (sock.dataSessionId = none →
        handleTextOperation sock op now st =
          (st, [Emit.toSender sock.socketId (OutEvent.errorEvent "Not in a session")])) ∧
      (∀ sessionId, sock.dataSessionId = some sessionId →
        mapGet st.activeSessions sessionId = none →
        handleTextOperation sock op now st =
          (st, [Emit.toSender sock.socketId (OutEvent.errorEvent "Session not found")])) := by
  intro sock op now st
  constructor
  · intro h
    simp [handleTextOperation, h]
  · intro sessionId h hs
    simp [handleTextOperation, h, hs]

/-- C6 witness: the two error branches evaluated on an unjoined socket and
on a socket bound to a session absent from the registry. -/
theorem C6_error_branches_local_witness :
    handleTextOperation sockU op0 3 st1 =
      (st1, [Emit.toSender "U" (OutEvent.errorEvent "Not in a session")]) ∧
    handleTextOperation sockA op0 3 stEmpty =
      (stEmpty, [Emit.toSender "A" (OutEvent.errorEvent "Session not found")]) :=
  ⟨(C6_error_branches_local sockU op0 3 st1).1 rfl,
   (C6_error_branches_local sockA op0 3 stEmpty).2 "s" rfl rfl⟩

/-- C2 counterexample: two runs of the `text-operation` handler with the
identical client-visible input (same socket, same inbound frame, same
state) but different server clocks produce different acknowledgments: the
`operationId` in `operation-acknowledged` is the server-assigned
`Date.now()` stamp, so it cannot be the issuer's client-local operation
identifier (the inbound frame carries none, and nothing client-supplied
determines the acknowledged id). -/
theorem C2_counterexample :
    (handleTextOperation sockA op0 10 st1).2 ≠ (handleTextOperation sockA op0 20 st1).2 := by
  decide

/-- C2 (amended): for every successfully applied text operation, the
acknowledgment sent to the issuer carries the server-assigned operation
identifier — the `Date.now()` receipt timestamp stamped onto the operation
— together with the new version (old version + 1); no client-local
operation identifier is echoed. -/
theorem C2_ack_server_stamp :
    ∀ (sock : Sock) (op : OpCore) (now : Nat) (st : ServerState) (sessionId : String)
      (session : CollaborationSession),
      sock.dataSessionId = some sessionId →
      mapGet st.activeSessions sessionId = some session →
      (handleTextOperation sock op now st).2 =
        [ Emit.toRoomExceptSender sessionId sock.socketId
            (OutEvent.operationApplied (stampOp sock sessionId op now))
        , Emit.toSender sock.socketId
            (OutEvent.operationAcknowledged now (session.version + 1)) ] := by
  intro sock op now st sessionId session h hs
  simp [handleTextOperation, h, hs, stampOp]

/-- C2 witness: the acknowledgment for an insert on `session1` (version 5)
at server clock 10 carries operationId 10 and newVersion 6. -/
theorem C2_ack_server_stamp_witness :
    (handleTextOperation sockA op0 10 st1).2 =
      [ Emit.toRoomExceptSender "s" "A"
          (OutEvent.operationApplied (stampOp sockA "s" op0 10))
      , Emit.toSender "A" (OutEvent.operationAcknowledged 10 6) ] :=
  C2_ack_server_stamp sockA op0 10 st1 "s" session1 rfl rfl

/-- C9 counterexample: identity `a` is not a participant of the bound
session (its only participant is `b`), yet the `cursor-update` handler
still broadcasts a `cursor-moved` event to the session room — the claim
that nothing is broadcast is false on the code. -/
theorem C9_counterexample :
    mapGet sessionB.participants sockA.userId = none ∧
    (handleCursorUpdate sockA { line := 1, column := 2, selection := none } 7 stB).2 ≠ [] := by
  decide

/-- C9 (amended): a `cursor-update` from an identity that is not a current
participant of the bound session changes no participant state (the server
state is returned unchanged), but a `cursor-moved` event is still broadcast
to the other participants of the session room. -/
theorem C9_nonparticipant_cursor :
    ∀ (sock : Sock) (data : CursorUpdateData) (now : Nat) (st : ServerState)
      (sessionId : String) (session : CollaborationSession),
      sock.dataSessionId = some sessionId →
      mapGet st.activeSessions sessionId = some session →
      mapGet session.participants sock.userId = none →
      handleCursorUpdate sock data now st =
        (st, [Emit.toRoomExceptSender sessionId sock.socketId
          (OutEvent.cursorMoved sock.userId sock.username data.line data.column
            data.selection now)]) := by
  intro sock data now st sessionId session h hs hp
  simp [handleCursorUpdate, h, hs, hp]

/-- C9 witness: the amended statement evaluated on `sessionB` (participant
`b` only) for a cursor update from identity `a`. -/
theorem C9_nonparticipant_cursor_witness :
    handleCursorUpdate sockA { line := 1, column := 2, selection := none } 7 stB =
      (stB, [Emit.toRoomExceptSender "s" "A"
        (OutEvent.cursorMoved "a" "ua" 1 2 none 7)]) :=
  C9_nonparticipant_cursor sockA { line := 1, column := 2, selection := none } 7 stB "s"
    sessionB rfl rfl rfl

/-- C3: the Connection Gateway dispatches every inbound frame without ever
consulting the Admission Gate — `wsRateLimiter` is imported by the
WebSocket module but `checkLimit` is never invoked — so a `text-operation`
frame from any identity (including one whose rate budget the gate would
reject) mutates session state and is broadcast, and no rejection notice is
ever produced: `dispatchFrame` has no admission parameter at all, and here
it applies the operation and acknowledges it. -/
theorem C3_no_admission_check :
    (dispatchFrame sockA (InboundFrame.textOperation op0) 10 st1).2.1 ≠ st1 ∧
    (dispatchFrame sockA (InboundFrame.textOperation op0) 10 st1).2.2 =
      [ Emit.toRoomExceptSender "s" "A"
          (OutEvent.operationApplied (stampOp sockA "s" op0 10))
      , Emit.toSender "A" (OutEvent.operationAcknowledged 10 6) ] := by
  decide

theorem emitTargets_excludes_sender (sockets : List Sock) (room sender : String)
    (ev : OutEvent) :
    ∀ s ∈ emitTargets sockets (Emit.toRoomExceptSender room sender ev),
      s.socketId ≠ sender := by
  intro s hs
  simp only [emitTargets, List.mem_filter, Bool.and_eq_true, bne_iff_ne] at hs
  exact hs.2.2

/-- C8: for every `text-operation` and `cursor-update` frame, every
`operation-applied` (resp. `cursor-moved`) emission produced by the handler
is on the room-minus-sender channel, so for any roster of connected
sockets its delivery targets never include the issuer's socket. -/
theorem C8_no_self_broadcast :
    ∀ (sockets : List Sock) (sock : Sock) (op : OpCore) (data : CursorUpdateData)
      (now : Nat) (st : ServerState),
      (∀ e ∈ (handleTextOperation sock op now st).2,
        (∃ top, e.event = OutEvent.operationApplied top) →
        ∀ s ∈ emitTargets sockets e, s.socketId ≠ sock.socketId) ∧
      (∀ e ∈ (handleCursorUpdate sock data now st).2,
        (∃ u un l c sel ts, e.event = OutEvent.cursorMoved u un l c sel ts) →
        ∀ s ∈ emitTargets sockets e, s.socketId ≠ sock.socketId) := by
  intro sockets sock op data now st
  constructor
  · intro e he hev
    obtain ⟨top, htop⟩ := hev
    rcases hd : sock.dataSessionId with _ | sessionId
    · simp only [handleTextOperation, hd] at he
      simp only [List.mem_singleton] at he
      subst he
      simp [Emit.event] at htop
    · rcases hs : mapGet st.activeSessions sessionId with _ | session
      · simp only [handleTextOperation, hd, hs] at he
        simp only [List.mem_singleton] at he
        subst he
        simp [Emit.event] at htop
      · simp only [handleTextOperation, hd, hs, List.mem_cons, List.mem_singleton,
          List.not_mem_nil, or_false] at he
        rcases he with he | he
        · subst he
          exact emitTargets_excludes_sender sockets sessionId sock.socketId _
        · subst he
          simp [Emit.event] at htop
  · intro e he hev
    obtain ⟨u, un, l, c, sel, ts, hev⟩ := hev
    rcases hd : sock.dataSessionId with _ | sessionId
    · simp only [handleCursorUpdate, hd, List.not_mem_nil] at he
    · rcases hs : mapGet st.activeSessions sessionId with _ | session
      · simp only [handleCursorUpdate, hd, hs, List.not_mem_nil] at he
      · simp only [handleCursorUpdate, hd, hs, List.mem_singleton] at he
        subst he
        exact emitTargets_excludes_sender sockets sessionId sock.socketId _

/-- C8 witness: with roster `[sockA, sockB]`, the `operation-applied`
emission issued by socket `A` on `session1` is never delivered to socket
`A` itself. -/
theorem C8_no_self_broadcast_witness :
    sockA ∉ emitTargets [sockA, sockB]
      (Emit.toRoomExceptSender "s" "A"
        (OutEvent.operationApplied (stampOp sockA "s" op0 10))) :=
  fun h =>
    (C8_no_self_broadcast [sockA, sockB] sockA op0
        { line := 1, column := 2, selection := none } 10 st1).1
      (Emit.toRoomExceptSender "s" "A"
        (OutEvent.operationApplied (stampOp sockA "s" op0 10)))
      (by decide) ⟨stampOp sockA "s" op0 10, rfl⟩ sockA h rfl

/-- C1: for every session and every sequence of `text-operation` frames
all bound to it, the final documentContent equals the left-fold of
`applyOperation` (over the server-stamped operations) over the initial
content in receipt order, the final version equals the initial version
plus the number of frames, and the version of the resident session never
decreases. -/
theorem C1_fold_version (sid : String) :
    ∀ (frames : List OpFrame) (st : ServerState) (session : CollaborationSession),
      (∀ f ∈ frames, f.sock.dataSessionId = some sid) →
      mapGet st.activeSessions sid = some session →
      ((mapGet (processOpFrames frames st).activeSessions sid).map
          (fun s => (s.currentContent, s.version)) =
        some (frames.foldl
            (fun c f => applyOperation c (stampOp f.sock sid f.op f.now))
            session.currentContent,
          session.version + frames.length)) ∧
      (∀ snew, mapGet (processOpFrames frames st).activeSessions sid = some snew →
        session.version ≤ snew.version) := by
  intro frames
  induction frames with
  | nil =>
      intro st session hb hs
      refine ⟨by simp [processOpFrames, hs], ?h2⟩
      intro snew hsnew
      simp only [processOpFrames, List.foldl_nil] at hsnew
      rw [hs] at hsnew
      have h2 := Option.some.inj hsnew
      subst h2
      exact le_refl _
  | cons f rest ih =>
      intro st session hb hs
      have hf : f.sock.dataSessionId = some sid := hb f (List.mem_cons_self f rest)
      set ns : CollaborationSession :=
        { session with
            currentContent :=
              applyOperation session.currentContent (stampOp f.sock sid f.op f.now)
            version := session.version + 1
            lastActivity := f.now } with hns
      have hstep : (handleTextOperation f.sock f.op f.now st).1 =
          { activeSessions := mapSet st.activeSessions sid ns } := by
        simp [handleTextOperation, hf, hs, hns, stampOp]
      have hproc : processOpFrames (f :: rest) st =
          processOpFrames rest (handleTextOperation f.sock f.op f.now st).1 := rfl
      rw [hproc, hstep]
      obtain ⟨ih1, ih2⟩ :=
        ih { activeSessions := mapSet st.activeSessions sid ns } ns
          (fun g hg => hb g (List.mem_cons_of_mem f hg))
          (mapGet_mapSet_self _ _ _)
      refine ⟨?c1, ?c2⟩
      · rw [ih1]
        simp only [List.foldl_cons, List.length_cons, Option.some.injEq, Prod.mk.injEq]
        exact ⟨trivial, by omega⟩
      · intro snew hsnew
        exact le_trans (Nat.le_succ session.version) (ih2 snew hsnew)

theorem leave_last_removes_session :
    ∀ (sock : Sock) (st : ServerState) (sessionId : String)
      (session : CollaborationSession),
      sock.dataSessionId = some sessionId →
      sock.userId ≠ "" →
      mapGet st.activeSessions sessionId = some session →
      mapDelete session.participants sock.userId = [] →
      mapGet (handleLeaveSession sock st).2.1.activeSessions sessionId = none := by
  intro sock st sessionId session hd hu hs hdel
  simp only [handleLeaveSession, hd, if_neg hu, hs, hdel, List.length_nil, if_pos rfl]
  exact mapGet_mapDelete_self _ _

theorem join_absent_creates_fresh :
    ∀ (sock : Sock) (sessionId : String) (now : Nat) (st : ServerState),
      mapGet st.activeSessions sessionId = none →
      mapGet (handleJoinSession sock sessionId now st).2.1.activeSessions sessionId =
        some { sessionId := sessionId, projectId := "temp-project"
               participants := [(sock.userId, joinParticipant sock now)]
               currentContent := defaultContent, version := 1, lastActivity := now } ∧
      (handleJoinSession sock sessionId now st).2.2 =
        [ Emit.toSender sock.socketId
            (OutEvent.sessionJoined sessionId defaultContent 1
              [participantView (joinParticipant sock now)])
        , Emit.toRoomExceptSender sessionId sock.socketId
            (OutEvent.participantJoined sock.userId sock.username now) ] := by
  intro sock sessionId now st h
  constructor
  · simp only [handleJoinSession, h]
    exact mapGet_mapSet_self _ _ _
  · simp [handleJoinSession, h, mapSet, joinParticipant]

theorem participants_nonempty_preserved :
    ∀ (sock : Sock) (frame : InboundFrame) (now : Nat) (st : ServerState),
      (∀ sid s, mapGet st.activeSessions sid = some s → s.participants ≠ []) →
      ∀ sid s,
        mapGet (dispatchFrame sock frame now st).2.1.activeSessions sid = some s →
        s.participants ≠ [] := by
  intro sock frame now st hinv sid s
  cases frame with
  | joinSession jsid =>
      simp only [dispatchFrame, handleJoinSession]
      intro hget
      by_cases hsid : sid = jsid
      · subst hsid
        rw [mapGet_mapSet_self] at hget
        cases Option.some.inj hget
        exact mapSet_ne_nil _ _ _
      · rw [mapGet_mapSet_ne _ _ _ _ hsid] at hget
        exact hinv sid s hget
  | textOperation op =>
      rcases hd : sock.dataSessionId with _ | sessionId
      · simp only [dispatchFrame, handleTextOperation, hd]
        intro hget
        exact hinv sid s hget
      · rcases hs : mapGet st.activeSessions sessionId with _ | session
        · simp only [dispatchFrame, handleTextOperation, hd, hs]
          intro hget
          exact hinv sid s hget
        · simp only [dispatchFrame, handleTextOperation, hd, hs]
          intro hget
          by_cases hsid : sid = sessionId
          · subst hsid
            rw [mapGet_mapSet_self] at hget
            cases Option.some.inj hget
            exact hinv sid session hs
          · rw [mapGet_mapSet_ne _ _ _ _ hsid] at hget
            exact hinv sid s hget
  | cursorUpdate data =>
      rcases hd : sock.dataSessionId with _ | sessionId
      · simp only [dispatchFrame, handleCursorUpdate, hd]
        intro hget
        exact hinv sid s hget
      · rcases hs : mapGet st.activeSessions sessionId with _ | session
        · simp only [dispatchFrame, handleCursorUpdate, hd, hs]
          intro hget
          exact hinv sid s hget
        · rcases hp : mapGet session.participants sock.userId with _ | participant
          · simp only [dispatchFrame, handleCursorUpdate, hd, hs, hp]
            intro hget
            exact hinv sid s hget
          · simp only [dispatchFrame, handleCursorUpdate, hd, hs, hp]
            intro hget
            by_cases hsid : sid = sessionId
            · subst hsid
              rw [mapGet_mapSet_self] at hget
              cases Option.some.inj hget
              exact mapSet_ne_nil _ _ _
            · rw [mapGet_mapSet_ne _ _ _ _ hsid] at hget
              exact hinv sid s hget
  | leaveSession =>
      rcases hd : sock.dataSessionId with _ | sessionId
      · simp only [dispatchFrame, handleLeaveSession, hd]
        intro hget
        exact hinv sid s hget
      · by_cases hu : sock.userId = ""
        · simp only [dispatchFrame, handleLeaveSession, hd, if_pos hu]
          intro hget
          exact hinv sid s hget
        · rcases hs : mapGet st.activeSessions sessionId with _ | session
          · simp only [dispatchFrame, handleLeaveSession, hd, if_neg hu, hs]
            intro hget
            exact hinv sid s hget
          · by_cases hlen : (mapDelete session.participants sock.userId).length = 0
            · simp only [dispatchFrame, handleLeaveSession, hd, if_neg hu, hs, hlen,
                eq_self_iff_true, if_true]
              intro hget
              by_cases hsid : sid = sessionId
              · subst hsid
                rw [mapGet_mapDelete_self] at hget
                exact Option.noConfusion hget
              · rw [mapGet_mapDelete_ne _ _ _ hsid] at hget
                exact hinv sid s hget
            · simp only [dispatchFrame, handleLeaveSession, hd, if_neg hu, hs,
                if_neg hlen]
              intro hget
              by_cases hsid : sid = sessionId
              · subst hsid
                rw [mapGet_mapSet_self] at hget
                cases Option.some.inj hget
                intro hnil
                exact hlen (List.length_eq_zero.mpr hnil)
              · rw [mapGet_mapSet_ne _ _ _ _ hsid] at hget
                exact hinv sid s hget

/-- C7: (1) a leave that removes the session's last participant removes the
session from the registry; (2) a subsequent join with the same sessionId
creates a fresh session with the default content and version 1 (both in
the stored session and in the `session-joined` payload); (3) across every
dispatched frame, no resident session ever has an empty participant set. -/
theorem C7_cleanup_law :
    (∀ (sock : Sock) (st : ServerState) (sessionId : String)
        (session : CollaborationSession),
        sock.dataSessionId = some sessionId →
        sock.userId ≠ "" →
        mapGet st.activeSessions sessionId = some session →
        mapDelete session.participants sock.userId = [] →
        mapGet (handleLeaveSession sock st).2.1.activeSessions sessionId = none) ∧
    (∀ (sock : Sock) (sessionId : String) (now : Nat) (st : ServerState),
        mapGet st.activeSessions sessionId = none →
        mapGet (handleJoinSession sock sessionId now st).2.1.activeSessions sessionId =
          some { sessionId := sessionId, projectId := "temp-project"
                 participants := [(sock.userId, joinParticipant sock now)]
                 currentContent := defaultContent, version := 1, lastActivity := now } ∧
        (handleJoinSession sock sessionId now st).2.2 =
          [ Emit.toSender sock.socketId
              (OutEvent.sessionJoined sessionId defaultContent 1
                [participantView (joinParticipant sock now)])
          , Emit.toRoomExceptSender sessionId sock.socketId
              (OutEvent.participantJoined sock.userId sock.username now) ]) ∧
    (∀ (sock : Sock) (frame : InboundFrame) (now : Nat) (st : ServerState),
        (∀ sid s, mapGet st.activeSessions sid = some s → s.participants ≠ []) →
        ∀ sid s,
          mapGet (dispatchFrame sock frame now st).2.1.activeSessions sid = some s →
          s.participants ≠ []) :=
  ⟨leave_last_removes_session, join_absent_creates_fresh, participants_nonempty_preserved⟩

/-- C7 witness: `A` leaving `session1` (its only participant) removes
session `"s"`; re-joining `"s"` on the now-empty registry yields a fresh
session with default content and version 1; and the joined frame keeps
every resident session's participant set nonempty. -/
theorem C7_cleanup_law_witness :
    mapGet (handleLeaveSession sockA st1).2.1.activeSessions "s" = none ∧
    mapGet (handleJoinSession sockA "s" 4 stEmpty).2.1.activeSessions "s" =
      some { sessionId := "s", projectId := "temp-project"
             participants := [("a", joinParticipant sockA 4)]
             currentContent := defaultContent, version := 1, lastActivity := 4 } ∧
    ({ sessionId := "t", projectId := "temp-project"
       participants := [("u1", joinParticipant sockU 9)]
       currentContent := defaultContent, version := 1,
       lastActivity := 9 } : CollaborationSession).participants ≠ [] :=
  ⟨C7_cleanup_law.1 sockA st1 "s" session1 rfl (by decide) rfl (by decide),
   (C7_cleanup_law.2.1 sockA "s" 4 stEmpty rfl).1,
   C7_cleanup_law.2.2 sockU (InboundFrame.joinSession "t") 9 st1
     (by
       intro sid s h
       simp only [st1, mapGet] at h
       split at h
       · cases Option.some.inj h
         decide
       · exact Option.noConfusion h)
     "t" _ (by decide)⟩

/-- C10 counterexample: `A` joins `"s"` at time 1, `B` joins at time 2,
then `A` re-joins at time 3. The `Map.set` re-join keeps `A` at its
original insertion position while refreshing its joinedAt, so the third
`session-joined` payload lists joinedAt values `[3, 2]`, which is not
non-decreasing — the claimed join-time ordering fails on re-joins. -/
theorem C10_counterexample :
    sessionJoinedTimes
        (handleJoinSession sockA "s" 3
          (handleJoinSession sockB "s" 2
            (handleJoinSession sockA "s" 1 stEmpty).2.1).2.1).2.2 =
      some [3, 2] ∧
    nonDecreasing [3, 2] = false := by
  decide

theorem handleJoinSession_emits_of_some (sock : Sock) (sessionId : String) (now : Nat)
    (st : ServerState) (session : CollaborationSession)
    (h : mapGet st.activeSessions sessionId = some session) :
    (handleJoinSession sock sessionId now st).2.2 =
      [ Emit.toSender sock.socketId
          (OutEvent.sessionJoined sessionId session.currentContent session.version
            ((mapSet session.participants sock.userId (joinParticipant sock now)).map
              (fun p => participantView p.2)))
      , Emit.toRoomExceptSender sessionId sock.socketId
          (OutEvent.participantJoined sock.userId sock.username now) ] := by
  simp [handleJoinSession, h, joinParticipant, participantView]

theorem sessionJoinedTimes_cons_joined (sender sid : String) (c : List Char) (v : Nat)
    (ps : List ParticipantView) (tail : List Emit) :
    sessionJoinedTimes (Emit.toSender sender (OutEvent.sessionJoined sid c v ps) :: tail) =
      some (ps.map (fun x => x.joinedAt)) := rfl

theorem processJoinFrames_participants :
    ∀ (frames : List JoinFrame) (sessionId : String) (st : ServerState)
      (session : CollaborationSession),
      mapGet st.activeSessions sessionId = some session →
      (∀ f ∈ frames, ∀ p ∈ session.participants, p.1 ≠ f.sock.userId) →
      List.Pairwise (fun a b => a.sock.userId ≠ b.sock.userId) frames →
      mapGet (processJoinFrames sessionId frames st).activeSessions sessionId =
        some { session with
          participants := session.participants ++
            frames.map (fun f => (f.sock.userId, joinParticipant f.sock f.now)) } := by
  intro frames
  induction frames with
  | nil =>
      intro sessionId st session hs hfresh hpw
      simp [processJoinFrames, hs]
  | cons f rest ih =>
      intro sessionId st session hs hfresh hpw
      rw [List.pairwise_cons] at hpw
      obtain ⟨hf_rest, hpwrest⟩ := hpw
      have hfr : ∀ p ∈ session.participants, p.1 ≠ f.sock.userId :=
        hfresh f (List.mem_cons_self f rest)
      have hset := mapSet_of_not_mem session.participants f.sock.userId
        (joinParticipant f.sock f.now) hfr
      have hstep : (handleJoinSession f.sock sessionId f.now st).2.1 =
          { activeSessions := mapSet st.activeSessions sessionId
              { session with
                participants := session.participants ++
                  [(f.sock.userId, joinParticipant f.sock f.now)] } } := by
        simp [handleJoinSession, hs, hset]
      have hproc : processJoinFrames sessionId (f :: rest) st =
          processJoinFrames sessionId rest
            (handleJoinSession f.sock sessionId f.now st).2.1 := rfl
      rw [hproc, hstep]
      have ihres := ih sessionId
        { activeSessions := mapSet st.activeSessions sessionId
            { session with
              participants := session.participants ++
                [(f.sock.userId, joinParticipant f.sock f.now)] } }
        { session with
          participants := session.participants ++
            [(f.sock.userId, joinParticipant f.sock f.now)] }
        (mapGet_mapSet_self _ _ _)
        (fun a ha p hp => by
          rcases List.mem_append.mp hp with hp | hp
          · exact hfresh a (List.mem_cons_of_mem f ha) p hp
          · rw [List.mem_singleton] at hp
            subst hp
            exact hf_rest a ha)
        hpwrest
      rw [ihres]
      simp [List.append_assoc]

/-- C10 (amended): the participants map keeps first-join insertion order,
so for every join sequence of pairwise-distinct identities with
non-decreasing join times onto a fresh sessionId, the final
`session-joined` payload lists the participants' joinedAt values in join
order — in particular non-decreasing. (A re-join keeps the identity's
original position while refreshing joinedAt, which is what breaks the
unrestricted claim.) -/
theorem C10_first_join_order :
    ∀ (sessionId : String) (frames : List JoinFrame) (f : JoinFrame) (st : ServerState),
      mapGet st.activeSessions sessionId = none →
      List.Pairwise (fun a b => a.sock.userId ≠ b.sock.userId) (frames ++ [f]) →
      nonDecreasing ((frames ++ [f]).map (fun g => g.now)) = true →
      sessionJoinedTimes
          (handleJoinSession f.sock sessionId f.now
            (processJoinFrames sessionId frames st)).2.2 =
        some ((frames ++ [f]).map (fun g => g.now)) ∧
      nonDecreasing ((frames ++ [f]).map (fun g => g.now)) = true := by
  intro sessionId frames f st h hpw hchain
  refine ⟨?times, hchain⟩
  cases frames with
  | nil =>
      have hj := (join_absent_creates_fresh f.sock sessionId f.now st h).2
      simp only [processJoinFrames, List.foldl_nil]
      rw [hj]
      simp [sessionJoinedTimes, Emit.event, participantView, joinParticipant]
  | cons g rest =>
      rw [List.cons_append, List.pairwise_cons] at hpw
      obtain ⟨hg, hpw'⟩ := hpw
      rw [List.pairwise_append] at hpw'
      obtain ⟨hpwrest, _, hcross⟩ := hpw'
      have h0 := (join_absent_creates_fresh g.sock sessionId g.now st h).1
      have hacc := processJoinFrames_participants rest sessionId
        (handleJoinSession g.sock sessionId g.now st).2.1
        { sessionId := sessionId, projectId := "temp-project"
          participants := [(g.sock.userId, joinParticipant g.sock g.now)]
          currentContent := defaultContent, version := 1, lastActivity := g.now }
        h0
        (fun a ha p hp => by
          rw [List.mem_singleton] at hp
          subst hp
          exact hg a (List.mem_append_left _ ha))
        hpwrest
      have hproc : processJoinFrames sessionId (g :: rest) st =
          processJoinFrames sessionId rest
            (handleJoinSession g.sock sessionId g.now st).2.1 := rfl
      rw [hproc]
      rw [handleJoinSession_emits_of_some f.sock sessionId f.now _ _ hacc]
      rw [sessionJoinedTimes_cons_joined]
      have hfreshf : ∀ p ∈
          ([(g.sock.userId, joinParticipant g.sock g.now)] ++
            rest.map (fun a => (a.sock.userId, joinParticipant a.sock a.now))),
          p.1 ≠ f.sock.userId := by
        intro p hp
        rcases List.mem_append.mp hp with hp | hp
        · rw [List.mem_singleton] at hp
          subst hp
          exact hg f (List.mem_append_right _ (List.mem_singleton_self f))
        · obtain ⟨a, ha, rfl⟩ := List.mem_map.mp hp
          exact hcross a ha f (List.mem_singleton_self f)
      have hset := mapSet_of_not_mem _ f.sock.userId (joinParticipant f.sock f.now) hfreshf
      simp only [hset]
      simp [participantView, joinParticipant, List.map_append, List.map_map,
        Function.comp]

/-- C10 witness: distinct identities `a`, `b`, `u1` joining fresh session
`"s"` at times 1, 2, 3 — the final payload lists joinedAt `[1, 2, 3]`. -/
theorem C10_first_join_order_witness :
    sessionJoinedTimes
        (handleJoinSession sockU "s" 3
          (processJoinFrames "s" [jfA, jfB] stEmpty)).2.2 =
      some ((([jfA, jfB] : List JoinFrame) ++ [jfU]).map (fun g => g.now)) ∧
    nonDecreasing ((([jfA, jfB] : List JoinFrame) ++ [jfU]).map (fun g => g.now)) = true :=
  C10_first_join_order "s" [jfA, jfB] jfU stEmpty rfl (by decide) (by decide)

/-- C1 witness: the two operations of `frames1` (an insert by `A`, a
delete by `B`) on `session1` (initial content `"hi"`, version 5). -/
theorem C1_fold_version_witness :
    (mapGet (processOpFrames frames1 st1).activeSessions "s").map
        (fun s => (s.currentContent, s.version)) =
      some (frames1.foldl
          (fun c f => applyOperation c (stampOp f.sock "s" f.op f.now))
          session1.currentContent,
        session1.version + frames1.length) :=
  (C1_fold_version "s" frames1 st1 session1 (by decide) rfl).1

end Collab
